import Mathlib

/-!
Verification development for the flappy-bird simulation core.

The definitions below are a shallow embedding of the enhanced,
frame-rate-independent implementation (src/unnamed/part_000); the legacy
fixed-step implementation (src/game.js) agrees with it on everything the
theorems below touch except for the best-score initialization, which is
modelled separately (`bestScoreInitLegacy`).  JavaScript numbers are
embedded as rationals; all arithmetic in the simulation core is exact on
the inputs considered.  Rendering calls (canvas drawing, DOM updates) are
side-effect-free with respect to the simulation state and are omitted;
the per-particle random fields are visual-only, so the particle buffer is
embedded as its live count.
-/

namespace Flappy

/-- Game phases (the `GameState` enum of the source; the legacy version lacks
`paused`). -/
inductive GamePhase
  | start
  | playing
  | paused
  | gameOver
  deriving DecidableEq

/- CONFIG constants from src/unnamed/part_000 (decimal literals written as
exact rationals: 0.6 = 3/5, 2.5 = 5/2, 0.15 = 3/20, 0.05 = 1/20, 1.8 = 9/5). -/

def canvasWidth : ℚ := 400
def canvasHeight : ℚ := 600
def birdStartX : ℚ := 80
def birdWidthC : ℚ := 34
def birdHeightC : ℚ := 24
def birdGravity : ℚ := 3/5
def jumpStrength : ℚ := -10
def terminalVelocity : ℚ := 10
def hitboxPadding : ℚ := 5
def pipeWidthC : ℚ := 60
def pipeGapBase : ℚ := 150
def pipeMinHeight : ℚ := 50
def pipeBaseSpeed : ℚ := 5/2
def pipeSpawnInterval : ℕ := 120
def groundHeight : ℚ := 100
def groundScrollSpeed : ℚ := 5/2
def targetFPS : ℚ := 60
def rotationEasing : ℚ := 3/20
def difficultyEnabled : Bool := true
def speedIncreasePerScore : ℚ := 1/20
def maxSpeedMultiplier : ℚ := 9/5
def gapDecreasePerScore : ℚ := 2
def minGap : ℚ := 120
def jumpCooldown : ℚ := 100

/-- `deltaTime / (1000 / CONFIG.physics.targetFPS)` — the dimensionless
frame-rate-independence multiplier computed throughout the source. -/
def normalizedDelta (dt : ℚ) : ℚ := dt / (1000 / targetFPS)

/-- JavaScript `%` on the nonnegative operands used by the source
(wing-animation phase, highlight offset); on nonnegative dividend and
positive divisor JS remainder agrees with floor-mod. -/
def jsMod (a b : ℚ) : ℚ := a - b * ⌊a / b⌋

/-- The bird object: position (x fixed by the source), size, velocity,
rotation and wing-animation phase. -/
structure Bird where
  x : ℚ
  y : ℚ
  width : ℚ
  height : ℚ
  velocity : ℚ
  rotation : ℚ
  wingFrame : ℚ
  deriving DecidableEq

/-- The bird as created at startup (`bird` object literal). -/
def birdInit : Bird :=
  { x := birdStartX, y := canvasHeight / 2, width := birdWidthC,
    height := birdHeightC, velocity := 0, rotation := 0, wingFrame := 0 }

/-- `bird.jump()`: unconditionally set velocity to the jump impulse
(particle emission is handled at the state level). -/
def birdJump (b : Bird) : Bird := { b with velocity := jumpStrength }

/-- `bird.reset()`: restore y to the vertical center, zero
velocity/rotation/wing phase; same identity, other fields untouched. -/
def birdReset (b : Bird) : Bird :=
  { b with y := canvasHeight / 2, velocity := 0, rotation := 0, wingFrame := 0 }

/-- Velocity after the gravity step and terminal-velocity clamp inside
`bird.update(dt)`. -/
def birdVel1 (b : Bird) (dt : ℚ) : ℚ :=
  min (b.velocity + birdGravity * normalizedDelta dt) terminalVelocity

/-- Vertical position after the integration step inside `bird.update(dt)`,
before the boundary checks. -/
def birdY1 (b : Bird) (dt : ℚ) : ℚ :=
  b.y + birdVel1 b dt * normalizedDelta dt

/-- `bird.update(dt)`: gravity + terminal clamp, integration, rotation
easing (not delta-scaled in the source), wing phase, then the ground check
(snap + zero velocity + game over only while PLAYING) followed by the
ceiling check.  Returns the updated bird and whether `gameOver()` was
called.  The impact-particle emission is handled at the state level. -/
def birdUpdate (phase : GamePhase) (b : Bird) (dt : ℚ) : Bird × Bool :=
  let nd := normalizedDelta dt
  let v2 := birdVel1 b dt
  let y1 := birdY1 b dt
  let target := min (max (v2 * 4) (-30)) 90
  let rot := b.rotation + (target - b.rotation) * rotationEasing
  let wf := jsMod (b.wingFrame + (1/5) * nd) 3
  let hitGround := decide (y1 + b.height > canvasHeight - groundHeight)
  let y2 := if hitGround then canvasHeight - groundHeight - b.height else y1
  let v3 := if hitGround then 0 else v2
  let go := hitGround && decide (phase = GamePhase.playing)
  let y3 := if y2 < 0 then 0 else y2
  let v4 := if y2 < 0 then 0 else v3
  ({ b with y := y3, velocity := v4, rotation := rot, wingFrame := wf }, go)

/-- A pipe instance (obstacle).  `minHeight`/`maxHeight` of the source are
spawn-time locals folded into `topHeight`; `speed` is captured at spawn. -/
structure Pipe where
  x : ℚ
  width : ℚ
  gap : ℚ
  topHeight : ℚ
  scored : Bool
  speed : ℚ
  highlightOffset : ℚ
  deriving DecidableEq

/-- `new Pipe()` with the random sample `r` (the `Math.random()` draw in
[0,1)) passed explicitly; `gap` and the difficulty multiplier are read from
the current difficulty state. -/
def spawnPipe (r gap mult : ℚ) : Pipe :=
  { x := canvasWidth, width := pipeWidthC, gap := gap,
    topHeight := r * ((canvasHeight - gap - groundHeight - 50) - pipeMinHeight) + pipeMinHeight,
    scored := false, speed := pipeBaseSpeed * mult, highlightOffset := 0 }

/-- `Pipe.update(dt)`: move left by `speed * normalizedDelta`, advance the
highlight offset, then latch `scored` when the right edge has passed the
bird's x.  Returns the updated pipe and whether the score fired this tick
(the source increments the global score there). -/
def pipeUpdate (p : Pipe) (birdXPos dt : ℚ) : Pipe × Bool :=
  let nd := normalizedDelta dt
  let x1 := p.x - p.speed * nd
  let ho := jsMod (p.highlightOffset + (1/2) * nd) 20
  let fire := !p.scored && decide (x1 + p.width < birdXPos)
  ({ p with x := x1, highlightOffset := ho, scored := p.scored || fire }, fire)

/-- `Pipe.collidesWith(bird)`: shrink the bird box by the hitbox padding,
test horizontal overlap with the pipe band, then test breach of the top
obstacle or the bottom obstacle. -/
def collidesWith (p : Pipe) (b : Bird) : Bool :=
  let birdLeft := b.x + hitboxPadding
  let birdRight := b.x + b.width - hitboxPadding
  let birdTop := b.y + hitboxPadding
  let birdBottom := b.y + b.height - hitboxPadding
  (decide (birdRight > p.x) && decide (birdLeft < p.x + p.width)) &&
    (decide (birdTop < p.topHeight) || decide (birdBottom > p.topHeight + p.gap))

/-- `updateDifficulty()` as a pure function of the enabled switch, the
cumulative score and the previous outputs (the early return when disabled
keeps the previous outputs). -/
def updateDifficulty (enabled : Bool) (score : ℕ) (dm gap : ℚ) : ℚ × ℚ :=
  if enabled = false then (dm, gap)
  else
    (min (1 + (score : ℚ) * speedIncreasePerScore) maxSpeedMultiplier,
     max (pipeGapBase - (score : ℚ) * gapDecreasePerScore) minGap)

/-- Difficulty outputs after a sequence of recomputes (one per score value
passed), starting from the initial values (multiplier 1, base gap). -/
def difficultyAfter (enabled : Bool) (scores : List ℕ) : ℚ × ℚ :=
  scores.foldl (fun st sc => updateDifficulty enabled sc st.1 st.2) (1, pipeGapBase)

/-- The mutable game variables of the source, gathered into one record.
The particle buffer is embedded as its live count (per-particle fields are
random and visual-only); `bestScore` is an integer as produced by
`parseInt`. -/
structure GState where
  phase : GamePhase
  score : ℕ
  bestScore : ℤ
  frame : ℕ
  particleCount : ℕ
  bird : Bird
  pipes : List Pipe
  difficultyMultiplier : ℚ
  currentPipeGap : ℚ
  lastFrameTime : ℚ
  groundOffset : ℚ
  lastJumpTime : ℚ
  deriving DecidableEq

/-- `startGame()`: enter PLAYING and reset score, pipes, particles, frame
counter, difficulty outputs and the bird (DOM effects omitted). -/
def startGame (s : GState) : GState :=
  { s with phase := GamePhase.playing, score := 0, pipes := [],
           particleCount := 0, frame := 0, difficultyMultiplier := 1,
           currentPipeGap := pipeGapBase, bird := birdReset s.bird }

/-- `gameOver()`: enter GAME_OVER and update the persisted best score when
the final score exceeds it.  The boolean records whether the
`localStorage.setItem` write happened. -/
def gameOverUpd (s : GState) : GState × Bool :=
  if (s.score : ℤ) > s.bestScore then
    ({ s with phase := GamePhase.gameOver, bestScore := (s.score : ℤ) }, true)
  else
    ({ s with phase := GamePhase.gameOver }, false)

/-- The effects of one score increment inside `Pipe.update`: `score++`,
`updateDifficulty()` (with the incremented score and the CONFIG enabled
switch) and 15 reward particles. -/
def applyScoreEffects (s : GState) : GState :=
  let s1 := { s with score := s.score + 1, particleCount := s.particleCount + 15 }
  let d := updateDifficulty difficultyEnabled s1.score s1.difficultyMultiplier s1.currentPipeGap
  { s1 with difficultyMultiplier := d.1, currentPipeGap := d.2 }

/-- One pipe's share of the PLAYING tick: `pipe.update(dt)` (with its score
side effects), the collision test against the (already updated) bird with
its `gameOver()` call and 15 collision particles, and the off-screen
verdict (`none` when `x + width < 0`, i.e. the pipe is spliced out). -/
def pipeStepState (dt : ℚ) (s : GState) (p : Pipe) : GState × Option Pipe :=
  let r := pipeUpdate p s.bird.x dt
  let s1 := if r.2 then applyScoreEffects s else s
  let s2 := if collidesWith r.1 s1.bird then
              (gameOverUpd { s1 with particleCount := s1.particleCount + 15 }).1
            else s1
  (s2, if r.1.x + r.1.width < 0 then none else some r.1)

/-- The pipe loop of `gameLoop` (the source iterates from the last index
down to 0, splicing off-screen pipes in place): later pipes are processed
first and survivors are reassembled in their original relative order. -/
def pipesFoldRev (dt : ℚ) (s : GState) : List Pipe → GState × List Pipe
  | [] => (s, [])
  | p :: rest =>
    let t := pipesFoldRev dt s rest
    let u := pipeStepState dt t.1 p
    (u.1, u.2.toList ++ t.2)

/-- The pure shape of one tick's pipe movement-plus-cleanup pass: update
every pipe, then keep exactly those not fully off-screen. -/
def pipesStep (birdXPos dt : ℚ) (ps : List Pipe) : List Pipe :=
  (ps.map (fun p => (pipeUpdate p birdXPos dt).1)).filter
    (fun p => !decide (p.x + p.width < 0))

/-- The particle-count cap of the PLAYING tick (`slice(-100)` when more
than 200 live particles); per-particle life decay is visual-only and not
modelled. -/
def particleCap (n : ℕ) : ℕ := if n > 200 then 100 else n

/-- `deltaTime` as computed at the top of `gameLoop(currentTime)`:
`now - lastFrameTime`, clamped to at most 100 ms. -/
def tickDelta (s : GState) (now : ℚ) : ℚ := min (now - s.lastFrameTime) 100

/-- One `gameLoop(currentTime)` invocation on the simulation state, with
the spawn-time random draw `r` passed explicitly.  The clock runs
unconditionally; gameplay (frame counter, ground scroll, spawning, bird
update with its possible game over, the pipe pass, the particle cap) runs
only while PLAYING; PAUSED and the menu phases only render. -/
def gameLoopTick (s : GState) (now r : ℚ) : GState :=
  let dt := tickDelta s now
  let s1 := { s with lastFrameTime := now }
  match s1.phase with
  | GamePhase.playing =>
    let nd := normalizedDelta dt
    let s2 := { s1 with frame := s1.frame + 1,
                        groundOffset := s1.groundOffset + groundScrollSpeed * nd }
    let s3 := if s2.frame % pipeSpawnInterval = 0 then
                { s2 with pipes := s2.pipes ++ [spawnPipe r s2.currentPipeGap s2.difficultyMultiplier] }
              else s2
    let bu := birdUpdate GamePhase.playing s3.bird dt
    let s4 := { s3 with bird := bu.1,
                        particleCount := s3.particleCount + (if bu.2 then 10 else 0) }
    let s5 := if bu.2 then (gameOverUpd s4).1 else s4
    let t := pipesFoldRev dt s5 s5.pipes
    let s7 := { t.1 with pipes := t.2 }
    { s7 with particleCount := particleCap s7.particleCount }
  | _ => s1

/-- `handleJump()`: the jump-input dispatcher, including the input-layer
cooldown (`lastJumpTime`).  START: full reset then `bird.jump()` (with its
5 wing particles); PLAYING: `bird.jump()`; GAME_OVER: full reset only;
PAUSED: no branch matches. -/
def handleJump (now : ℚ) (s : GState) : GState :=
  if now - s.lastJumpTime < jumpCooldown then s
  else
    let s0 := { s with lastJumpTime := now }
    match s0.phase with
    | GamePhase.start =>
      let s1 := startGame s0
      { s1 with bird := birdJump s1.bird, particleCount := s1.particleCount + 5 }
    | GamePhase.playing =>
      { s0 with bird := birdJump s0.bird, particleCount := s0.particleCount + 5 }
    | GamePhase.gameOver => startGame s0
    | GamePhase.paused => s0

/-- The operations of the source that can touch the bird between ticks:
the jump impulse, one `bird.update` call (with the phase the global state
is in), and the new-game reset. -/
inductive BirdOp
  | jump
  | update (phase : GamePhase) (dt : ℚ)
  | reset
  deriving DecidableEq

/-- The delta-time argument carried by a bird operation (0 for the
instantaneous ones). -/
def opDt : BirdOp → ℚ
  | BirdOp.update _ dt => dt
  | _ => 0

/-- Apply one bird operation. -/
def applyOp (b : Bird) : BirdOp → Bird
  | BirdOp.jump => birdJump b
  | BirdOp.update ph dt => (birdUpdate ph b dt).1
  | BirdOp.reset => birdReset b

/-- Run a sequence of bird operations from a given bird. -/
def runOps (b : Bird) (ops : List BirdOp) : Bird := ops.foldl applyOp b

/-- Run `Pipe.update` over a sequence of ticks against a fixed bird x,
returning the final pipe and the total number of score increments the
pipe fired. -/
def pipeRunAux (bx : ℚ) (p : Pipe) : List ℚ → Pipe × ℕ
  | [] => (p, 0)
  | dt :: rest =>
    let r := pipeUpdate p bx dt
    let tl := pipeRunAux bx r.1 rest
    (tl.1, (if r.2 then 1 else 0) + tl.2)

/-- Decimal value of a digit string. -/
def digitsVal (ds : List Char) : ℕ :=
  ds.foldl (fun acc c => acc * 10 + (c.toNat - 48)) 0

/-- The base-10 behavior of JavaScript `parseInt` on the stored string:
skip leading spaces, read an optional sign and then the maximal digit
prefix; `none` is NaN (no digit found). -/
def parseIntJS (s : List Char) : Option ℤ :=
  let t := s.dropWhile (fun c => c = ' ')
  match t with
  | '-' :: rest =>
    let ds := rest.takeWhile Char.isDigit
    if ds.isEmpty then none else some (-(digitsVal ds : ℤ))
  | '+' :: rest =>
    let ds := rest.takeWhile Char.isDigit
    if ds.isEmpty then none else some ((digitsVal ds : ℤ))
  | _ =>
    let ds := t.takeWhile Char.isDigit
    if ds.isEmpty then none else some ((digitsVal ds : ℤ))

/-- Startup initialization of the enhanced version (src/unnamed/part_000
line 63): `parseInt(localStorage.getItem(..)) || 0`.  `none` is an absent
key (`getItem` returns null, `parseInt(null)` is NaN); NaN and 0 are
falsy, so both fall back to 0. -/
def bestScoreInit (stored : Option (List Char)) : ℤ :=
  match stored with
  | none => 0
  | some s =>
    match parseIntJS s with
    | none => 0
    | some n => if n = 0 then 0 else n

/-- A JavaScript value that is either a raw string or a number, for the
legacy initialization which performs no parse. -/
inductive JSVal
  | str (s : List Char)
  | num (n : ℤ)
  deriving DecidableEq

/-- Startup initialization of the legacy version (src/game.js line 19):
`localStorage.getItem(..) || 0` with no `parseInt`.  null and the empty
string are falsy and fall back to 0; any non-empty string is truthy and is
kept as-is. -/
def bestScoreInitLegacy (stored : Option (List Char)) : JSVal :=
  match stored with
  | none => JSVal.num 0
  | some s => if s.isEmpty then JSVal.num 0 else JSVal.str s

/-- The stored string "abc". -/
def abcChars : List Char := ['a', 'b', 'c']

/- Concrete states used by counterexamples and witnesses. -/

/-- A width-60 pipe sitting at x = -1 (end-to-end scenario 4 input). -/
def pAtMinusOne : Pipe :=
  { x := -1, width := 60, gap := 150, topHeight := 200, scored := true,
    speed := 5/2, highlightOffset := 0 }

/-- A PLAYING state holding only `pAtMinusOne`, one reference frame after
time 0. -/
def sScenario4 : GState :=
  { phase := GamePhase.playing, score := 0, bestScore := 0, frame := 0,
    particleCount := 0, bird := birdInit, pipes := [pAtMinusOne],
    difficultyMultiplier := 1, currentPipeGap := 150, lastFrameTime := 0,
    groundOffset := 0, lastJumpTime := 0 }

/-- A bird whose integrated position this tick lands exactly on the ground
line: with velocity 0 and one reference frame, y becomes 2377/5 + 3/5 =
476 and 476 + 24 = 500 = canvasHeight - groundHeight. -/
def bTouch : Bird :=
  { x := 80, y := 2377/5, width := 34, height := 24, velocity := 0,
    rotation := 0, wingFrame := 0 }

/-- A mid-game GAME_OVER state used to compare the restart transitions. -/
def sOver : GState :=
  { phase := GamePhase.gameOver, score := 7, bestScore := 3, frame := 42,
    particleCount := 9, bird := { birdInit with y := 476, velocity := 5 },
    pipes := [pAtMinusOne], difficultyMultiplier := 5/4, currentPipeGap := 140,
    lastFrameTime := 0, groundOffset := 10, lastJumpTime := 0 }

/-- A bird at y = 150, whose padded box sits fully inside the band
[100, 250] of the witness pipe below. -/
def bInsideGap : Bird :=
  { x := 80, y := 150, width := 34, height := 24, velocity := 0,
    rotation := 0, wingFrame := 0 }

/-- A concrete bird-operation sequence with nonnegative deltas. -/
def opsW : List BirdOp :=
  [BirdOp.jump, BirdOp.update GamePhase.playing (50/3),
   BirdOp.update GamePhase.playing 100, BirdOp.reset]

/-- A bird whose integrated position this tick strictly passes the ground
line (480 + 5.6 + 24 = 509.6 > 500). -/
def bGroundHit : Bird :=
  { x := 80, y := 480, width := 34, height := 24, velocity := 5,
    rotation := 0, wingFrame := 0 }

/-- A not-yet-scored pipe still to the right of the bird. -/
def pUnscored : Pipe :=
  { x := 100, width := 60, gap := 150, topHeight := 200, scored := false,
    speed := 5/2, highlightOffset := 0 }

/-- A width-60 pipe at x = -61, i.e. with x + width = -1 < 0. -/
def pMinus61 : Pipe :=
  { x := -61, width := 60, gap := 150, topHeight := 200, scored := true,
    speed := 5/2, highlightOffset := 0 }

/-! ## Helper lemmas -/

/-- `gameOver()` in one equation: enter GAME_OVER with the best score
raised to the maximum, and the persistence write happens exactly when the
score strictly exceeds the previous best. -/
theorem gameOverUpd_eq (s : GState) :
    (gameOverUpd s).1 = { s with phase := GamePhase.gameOver,
                                 bestScore := max s.bestScore (s.score : ℤ) } ∧
    ((gameOverUpd s).2 = true ↔ s.bestScore < (s.score : ℤ)) := by
  unfold gameOverUpd
  split_ifs with h
  · simp [max_eq_right h.le, h]
  · simp [max_eq_left (not_lt.mp h), h]

/-- `gameOver()` never lowers the best score and always enters GAME_OVER
(rewriting form of `gameOverUpd_eq`). -/
theorem gameOverUpd_fst (s : GState) :
    (gameOverUpd s).1 = { s with phase := GamePhase.gameOver,
                                 bestScore := max s.bestScore (s.score : ℤ) } :=
  (gameOverUpd_eq s).1

/-- The normalization divisor `1000 / targetFPS` is positive, so the
normalized delta of a nonnegative delta is nonnegative. -/
theorem normalizedDelta_nonneg (dt : ℚ) (h : 0 ≤ dt) :
    0 ≤ normalizedDelta dt :=
  div_nonneg h (by norm_num [targetFPS])

/-- One pipe step of the PLAYING tick leaves the bird, the clock fields
and the frame counter unchanged, and never lowers the best score. -/
theorem pipeStepState_preserved (dt : ℚ) (s : GState) (p : Pipe) :
    (pipeStepState dt s p).1.bird = s.bird ∧
    (pipeStepState dt s p).1.lastFrameTime = s.lastFrameTime ∧
    (pipeStepState dt s p).1.groundOffset = s.groundOffset ∧
    (pipeStepState dt s p).1.frame = s.frame ∧
    (pipeStepState dt s p).1.pipes = s.pipes ∧
    s.bestScore ≤ (pipeStepState dt s p).1.bestScore := by
  unfold pipeStepState applyScoreEffects
  dsimp only
  split_ifs <;> simp [gameOverUpd_fst, le_max_left]

/-- The whole pipe pass leaves the bird, the clock fields and the frame
counter unchanged, and never lowers the best score. -/
theorem pipesFoldRev_preserved (dt : ℚ) (ps : List Pipe) (s : GState) :
    (pipesFoldRev dt s ps).1.bird = s.bird ∧
    (pipesFoldRev dt s ps).1.lastFrameTime = s.lastFrameTime ∧
    (pipesFoldRev dt s ps).1.groundOffset = s.groundOffset ∧
    (pipesFoldRev dt s ps).1.frame = s.frame ∧
    s.bestScore ≤ (pipesFoldRev dt s ps).1.bestScore := by
  induction ps generalizing s with
  | nil => exact ⟨rfl, rfl, rfl, rfl, le_refl _⟩
  | cons p rest ih =>
    obtain ⟨ib, il, ig, ifr, ibs⟩ := ih s
    obtain ⟨sb, sl, sg, sf, _, sbs⟩ :=
      pipeStepState_preserved dt (pipesFoldRev dt s rest).1 p
    exact ⟨by simp only [pipesFoldRev]; rw [sb, ib],
      by simp only [pipesFoldRev]; rw [sl, il],
      by simp only [pipesFoldRev]; rw [sg, ig],
      by simp only [pipesFoldRev]; rw [sf, ifr],
      by simp only [pipesFoldRev]; exact le_trans ibs sbs⟩

/-- Field equations of one `Pipe.update` call: width and speed are
untouched, x moves by `speed * normalizedDelta`, the `scored` flag is the
old flag latched with the firing condition, and the score fires exactly
when the pipe was unscored and its (moved) right edge is strictly left of
the bird's x. -/
theorem pipeUpdate_fields (p : Pipe) (bx dt : ℚ) :
    (pipeUpdate p bx dt).1.width = p.width ∧
    (pipeUpdate p bx dt).1.speed = p.speed ∧
    (pipeUpdate p bx dt).1.x = p.x - p.speed * normalizedDelta dt ∧
    (pipeUpdate p bx dt).1.scored = (p.scored || (pipeUpdate p bx dt).2) ∧
    ((pipeUpdate p bx dt).2 = true ↔
      (p.scored = false ∧ (pipeUpdate p bx dt).1.x + p.width < bx)) := by
  refine ⟨rfl, rfl, rfl, rfl, ?_⟩
  simp only [pipeUpdate, Bool.and_eq_true, Bool.not_eq_true', decide_eq_true_eq]

/-- An already-scored pipe stays scored and fires no further increments
over any run of updates. -/
theorem pipeRunAux_scored_true (bx : ℚ) (dts : List ℚ) :
    ∀ p : Pipe, p.scored = true →
      (pipeRunAux bx p dts).1.scored = true ∧ (pipeRunAux bx p dts).2 = 0 := by
  induction dts with
  | nil => exact fun p hp => ⟨hp, rfl⟩
  | cons d rest ih =>
    intro p hp
    have hfire : (pipeUpdate p bx d).2 = false := by simp [pipeUpdate, hp]
    have hsc : (pipeUpdate p bx d).1.scored = true := by simp [pipeUpdate, hp]
    obtain ⟨h1, h2⟩ := ih (pipeUpdate p bx d).1 hsc
    simp [pipeRunAux, hfire, h1, h2]

/-- Over any run of updates, an initially-unscored pipe fires at most one
score increment. -/
theorem pipeRunAux_count_le_one (bx : ℚ) (dts : List ℚ) :
    ∀ p : Pipe, p.scored = false → (pipeRunAux bx p dts).2 ≤ 1 := by
  induction dts with
  | nil => intro p _; simp [pipeRunAux]
  | cons d rest ih =>
    intro p hp
    cases hf : (pipeUpdate p bx d).2 with
    | true =>
      have hsc : (pipeUpdate p bx d).1.scored = true := by
        rw [(pipeUpdate_fields p bx d).2.2.2.1, hf, Bool.or_true]
      have h0 := (pipeRunAux_scored_true bx rest (pipeUpdate p bx d).1 hsc).2
      simp [pipeRunAux, hf, h0]
    | false =>
      have hsc : (pipeUpdate p bx d).1.scored = false := by
        rw [(pipeUpdate_fields p bx d).2.2.2.1, hf, Bool.or_false, hp]
      have := ih (pipeUpdate p bx d).1 hsc
      simp [pipeRunAux, hf, this]

/-- For an initially-unscored pipe, the final `scored` flag records
whether some tick of the run fired. -/
theorem pipeRunAux_scored_iff (bx : ℚ) (dts : List ℚ) :
    ∀ p : Pipe, p.scored = false →
      ((pipeRunAux bx p dts).1.scored = true ↔ (pipeRunAux bx p dts).2 ≠ 0) := by
  induction dts with
  | nil => intro p hp; simp [pipeRunAux, hp]
  | cons d rest ih =>
    intro p hp
    cases hf : (pipeUpdate p bx d).2 with
    | true =>
      have hsc : (pipeUpdate p bx d).1.scored = true := by
        rw [(pipeUpdate_fields p bx d).2.2.2.1, hf, Bool.or_true]
      obtain ⟨h1, h2⟩ := pipeRunAux_scored_true bx rest (pipeUpdate p bx d).1 hsc
      simp [pipeRunAux, hf, h1, h2]
    | false =>
      have hsc : (pipeUpdate p bx d).1.scored = false := by
        rw [(pipeUpdate_fields p bx d).2.2.2.1, hf, Bool.or_false, hp]
      simp [pipeRunAux, hf, ih (pipeUpdate p bx d).1 hsc]

/-- Splitting a run of pipe updates at any point: the final pipe is the
tail run from the midpoint pipe, and the counts add. -/
theorem pipeRunAux_append (bx : ℚ) (l1 l2 : List ℚ) :
    ∀ p : Pipe,
      (pipeRunAux bx p (l1 ++ l2)).1 =
        (pipeRunAux bx (pipeRunAux bx p l1).1 l2).1 ∧
      (pipeRunAux bx p (l1 ++ l2)).2 =
        (pipeRunAux bx p l1).2 + (pipeRunAux bx (pipeRunAux bx p l1).1 l2).2 := by
  induction l1 with
  | nil => intro p; simp [pipeRunAux]
  | cons d rest ih =>
    intro p
    obtain ⟨h1, h2⟩ := ih (pipeUpdate p bx d).1
    simp [pipeRunAux, h1, h2]
    omega

/-- With nonnegative speed and deltas, a run of updates never moves a pipe
to the right, and keeps its speed and width. -/
theorem pipeRunAux_x_le (bx : ℚ) (dts : List ℚ) :
    ∀ p : Pipe, 0 ≤ p.speed → (∀ d ∈ dts, 0 ≤ d) →
      (pipeRunAux bx p dts).1.x ≤ p.x ∧
      (pipeRunAux bx p dts).1.speed = p.speed ∧
      (pipeRunAux bx p dts).1.width = p.width := by
  induction dts with
  | nil => intro p _ _; exact ⟨le_refl _, rfl, rfl⟩
  | cons d rest ih =>
    intro p hs hall
    have hd : 0 ≤ d := hall d (List.mem_cons_self d rest)
    have hmul : 0 ≤ p.speed * normalizedDelta d :=
      mul_nonneg hs (normalizedDelta_nonneg d hd)
    have hx1 : (pipeUpdate p bx d).1.x ≤ p.x := by
      rw [(pipeUpdate_fields p bx d).2.2.1]; linarith
    obtain ⟨ih1, ih2, ih3⟩ := ih (pipeUpdate p bx d).1 hs
      (fun o ho => hall o (List.mem_cons_of_mem d ho))
    exact ⟨by simp only [pipeRunAux]; exact le_trans ih1 hx1,
      by simp only [pipeRunAux]; rw [ih2]; rfl,
      by simp only [pipeRunAux]; rw [ih3]; rfl⟩

/-- The off-screen verdict of one pipe step, as a function of the updated
pipe alone. -/
theorem pipeStepState_snd (dt : ℚ) (s : GState) (p : Pipe) :
    (pipeStepState dt s p).2 =
      (if (pipeUpdate p s.bird.x dt).1.x + (pipeUpdate p s.bird.x dt).1.width < 0
       then none else some (pipeUpdate p s.bird.x dt).1) := rfl

/-- The survivor list of the in-place backward splice loop equals the
two-phase map-then-filter pass. -/
theorem pipesFoldRev_snd (dt : ℚ) (ps : List Pipe) (s : GState) :
    (pipesFoldRev dt s ps).2 = pipesStep s.bird.x dt ps := by
  induction ps generalizing s with
  | nil => rfl
  | cons p rest ih =>
    have hb : (pipesFoldRev dt s rest).1.bird = s.bird :=
      (pipesFoldRev_preserved dt rest s).1
    simp only [pipesFoldRev, pipesStep, List.map_cons, List.filter_cons,
      pipeStepState_snd, hb]
    rw [ih s]
    by_cases hc : (pipeUpdate p s.bird.x dt).1.x + (pipeUpdate p s.bird.x dt).1.width < 0 <;>
      simp [hc, pipesStep]

/-- `bird.update` never moves the bird horizontally. -/
theorem birdUpdate_x (ph : GamePhase) (b : Bird) (dt : ℚ) :
    (birdUpdate ph b dt).1.x = b.x := rfl

/-- Projection form of `pipesFoldRev_preserved` (clock field). -/
theorem pipesFoldRev_lastFrameTime (dt : ℚ) (ps : List Pipe) (s : GState) :
    (pipesFoldRev dt s ps).1.lastFrameTime = s.lastFrameTime :=
  (pipesFoldRev_preserved dt ps s).2.1

/-- Projection form of `pipesFoldRev_preserved` (ground offset). -/
theorem pipesFoldRev_groundOffset (dt : ℚ) (ps : List Pipe) (s : GState) :
    (pipesFoldRev dt s ps).1.groundOffset = s.groundOffset :=
  (pipesFoldRev_preserved dt ps s).2.2.1

/-- Projection form of `pipesFoldRev_preserved` (best score bound). -/
theorem pipesFoldRev_bestScore_le (dt : ℚ) (ps : List Pipe) (s : GState) :
    s.bestScore ≤ (pipesFoldRev dt s ps).1.bestScore :=
  (pipesFoldRev_preserved dt ps s).2.2.2.2

/-- The clock of `gameLoop` stores `lastFrameTime := now` on every tick,
whatever the phase. -/
theorem gameLoopTick_clock (s : GState) (now r : ℚ) :
    (gameLoopTick s now r).lastFrameTime = now := by
  cases hph : s.phase <;>
    simp [gameLoopTick, hph, pipesFoldRev_lastFrameTime, gameOverUpd_fst,
      apply_ite GState.lastFrameTime]

/-- While PLAYING, the ground scroll advances by
`scrollSpeed * normalizedDelta` and nothing later in the tick touches it. -/
theorem gameLoopTick_groundOffset (s : GState) (now r : ℚ)
    (hph : s.phase = GamePhase.playing) :
    (gameLoopTick s now r).groundOffset =
      s.groundOffset + groundScrollSpeed * normalizedDelta (tickDelta s now) := by
  simp [gameLoopTick, hph, pipesFoldRev_groundOffset, gameOverUpd_fst,
    apply_ite GState.groundOffset]

/-- The best score never decreases across one tick. -/
theorem gameLoopTick_bestScore_le (s : GState) (now r : ℚ) :
    s.bestScore ≤ (gameLoopTick s now r).bestScore := by
  cases hph : s.phase
  case playing =>
    simp only [gameLoopTick, hph]
    refine le_trans ?_ (pipesFoldRev_bestScore_le _ _ _)
    simp [gameOverUpd_fst, apply_ite GState.bestScore]
    split_ifs <;> simp [le_max_left]
  all_goals simp [gameLoopTick, hph]

/-- While PLAYING, the surviving pipe list after one tick is exactly the
two-phase pass over the (possibly spawn-extended) pipe list. -/
theorem gameLoopTick_pipes (s : GState) (now r : ℚ)
    (hph : s.phase = GamePhase.playing) :
    (gameLoopTick s now r).pipes =
      pipesStep s.bird.x (tickDelta s now)
        (if (s.frame + 1) % pipeSpawnInterval = 0 then
           s.pipes ++ [spawnPipe r s.currentPipeGap s.difficultyMultiplier]
         else s.pipes) := by
  simp [gameLoopTick, hph, pipesFoldRev_snd, gameOverUpd_fst, birdUpdate_x,
    apply_ite GState.pipes, apply_ite GState.bird, apply_ite Bird.x]

/-- A disabled difficulty switch keeps the previous outputs. -/
theorem updateDifficulty_disabled (sc : ℕ) (dm gap : ℚ) :
    updateDifficulty false sc dm gap = (dm, gap) := by
  simp [updateDifficulty]

/-- With the switch disabled, any recompute sequence keeps the starting
difficulty outputs. -/
theorem difficultyAfter_disabled (scores : List ℕ) :
    difficultyAfter false scores = (1, pipeGapBase) := by
  suffices h : ∀ st : ℚ × ℚ,
      scores.foldl (fun st sc => updateDifficulty false sc st.1 st.2) st = st by
    exact h (1, pipeGapBase)
  induction scores with
  | nil => intro st; rfl
  | cons a l ih => intro st; simp [List.foldl_cons, updateDifficulty_disabled, ih]

/-! ## Claim theorems -/

/-- C1: every tick computes `rawDelta = now - previous`, stores
`previous := now` unconditionally regardless of phase, clamps the delta to
at most 100 ms, and gameplay increments (pipe x, bird velocity and y, the
ground scroll) are scaled by `normalizedDelta = clampedDelta /
(1000 / targetFPS)`, which is exactly 1 for one reference frame at the
target rate. -/
theorem clock_delta_normalization (s : GState) (now r : ℚ) :
    (gameLoopTick s now r).lastFrameTime = now ∧
    tickDelta s now = min (now - s.lastFrameTime) 100 ∧
    tickDelta s now ≤ 100 ∧
    normalizedDelta (tickDelta s now) = tickDelta s now / (1000 / targetFPS) ∧
    normalizedDelta (1000 / targetFPS) = 1 ∧
    (∀ (p : Pipe) (bx : ℚ),
      (pipeUpdate p bx (tickDelta s now)).1.x =
        p.x - p.speed * normalizedDelta (tickDelta s now)) ∧
    (∀ b : Bird,
      birdVel1 b (tickDelta s now) =
        min (b.velocity + birdGravity * normalizedDelta (tickDelta s now))
          terminalVelocity ∧
      birdY1 b (tickDelta s now) =
        b.y + birdVel1 b (tickDelta s now) * normalizedDelta (tickDelta s now)) ∧
    (s.phase = GamePhase.playing →
      (gameLoopTick s now r).groundOffset =
        s.groundOffset + groundScrollSpeed * normalizedDelta (tickDelta s now)) :=
  ⟨gameLoopTick_clock s now r, rfl, min_le_right _ _, rfl,
    by norm_num [normalizedDelta, targetFPS],
    fun p bx => rfl, fun b => ⟨rfl, rfl⟩,
    gameLoopTick_groundOffset s now r⟩

/-- C1 witness: the ground-offset conjunct at a concrete PLAYING state. -/
theorem clock_delta_normalization_witness :
    (gameLoopTick sScenario4 10 0).groundOffset =
      sScenario4.groundOffset +
        groundScrollSpeed * normalizedDelta (tickDelta sScenario4 10) :=
  (clock_delta_normalization sScenario4 10 0).2.2.2.2.2.2.2 rfl

/-- C2 counterexample: a bird whose bottom edge lands exactly on the
ground line this tick ("reaches" it without strictly passing) keeps its
nonzero velocity and does not trigger GAME_OVER even though the phase is
PLAYING — the source's ground test is strict. -/
theorem bird_ground_touch_cex :
    birdY1 bTouch (50/3) + bTouch.height = canvasHeight - groundHeight ∧
    (birdUpdate GamePhase.playing bTouch (50/3)).1.velocity ≠ 0 ∧
    (birdUpdate GamePhase.playing bTouch (50/3)).2 = false := by
  refine ⟨?_, ?_, ?_⟩ <;>
    norm_num [birdUpdate, birdVel1, birdY1, normalizedDelta, jsMod, bTouch,
      targetFPS, birdGravity, terminalVelocity, canvasHeight, groundHeight,
      rotationEasing]

/-- C2 (amended): during `bird.update`, if the bird's bottom edge passes
STRICTLY below the ground line (and the resting position is not above the
ceiling), then y is snapped to rest exactly on the ground, velocity is set
to 0, and the GAME_OVER transition is triggered iff the current phase is
PLAYING; exact contact (bottom edge equal to the ground line) takes no
action. -/
theorem bird_ground_strict (phase : GamePhase) (b : Bird) (dt : ℚ)
    (h1 : canvasHeight - groundHeight < birdY1 b dt + b.height)
    (h2 : 0 ≤ canvasHeight - groundHeight - b.height) :
    (birdUpdate phase b dt).1.y = canvasHeight - groundHeight - b.height ∧
    (birdUpdate phase b dt).1.velocity = 0 ∧
    ((birdUpdate phase b dt).2 = true ↔ phase = GamePhase.playing) := by
  have hnl : ¬ (canvasHeight - groundHeight - b.height < 0) := not_lt.mpr h2
  simp [birdUpdate, h1, hnl]

/-- C2 witness: a concrete PLAYING bird strictly below the ground line
after integration is stopped (velocity zeroed). -/
theorem bird_ground_strict_witness :
    (birdUpdate GamePhase.playing bGroundHit (50/3)).1.velocity = 0 :=
  (bird_ground_strict GamePhase.playing bGroundHit (50/3)
    (by norm_num [birdY1, birdVel1, normalizedDelta, bGroundHit, targetFPS,
      birdGravity, terminalVelocity, canvasHeight, groundHeight])
    (by norm_num [bGroundHit, canvasHeight, groundHeight])).2.1

/-- C7: at game over the stored best becomes `max(previousBest, S)`, the
persistence write happens exactly when S exceeds the previous best, and no
operation (new game, jump dispatch, or a whole tick) ever lowers the best
score. -/
theorem bestScore_max_update (s : GState) :
    (gameOverUpd s).1.bestScore = max s.bestScore (s.score : ℤ) ∧
    ((gameOverUpd s).2 = true ↔ s.bestScore < (s.score : ℤ)) ∧
    s.bestScore ≤ (gameOverUpd s).1.bestScore ∧
    (gameOverUpd s).1.phase = GamePhase.gameOver ∧
    (startGame s).bestScore = s.bestScore ∧
    (∀ now : ℚ, (handleJump now s).bestScore = s.bestScore) ∧
    (∀ now r : ℚ, s.bestScore ≤ (gameLoopTick s now r).bestScore) := by
  refine ⟨by simp [gameOverUpd_fst], (gameOverUpd_eq s).2,
    by simp [gameOverUpd_fst, le_max_left], by simp [gameOverUpd_fst], rfl,
    ?_, fun now r => gameLoopTick_bestScore_le s now r⟩
  intro now
  unfold handleJump
  split_ifs with h
  · rfl
  · cases hph : s.phase <;> simp [hph, startGame, birdJump]

/-- C3: over any run of updates of an initially-unscored pipe (nonnegative
speed and deltas), the score fires at most once; a given tick fires iff no
earlier tick fired and the pipe's moved right edge `x + width` is strictly
left of the bird's x; the pipe only ever moves left (so the firing tick is
the first on which the condition holds); and a firing `Pipe.update` inside
the tick increments the global score by exactly 1 while a non-firing one
leaves it unchanged. -/
theorem pipe_scored_latch_once (bx : ℚ) (p : Pipe) (dts : List ℚ)
    (h0 : p.scored = false) (hs : 0 ≤ p.speed) (hd : ∀ d ∈ dts, 0 ≤ d) :
    (pipeRunAux bx p dts).2 ≤ 1 ∧
    (∀ pre d post, dts = pre ++ d :: post →
      ((pipeUpdate (pipeRunAux bx p pre).1 bx d).2 = true ↔
        ((pipeRunAux bx p pre).2 = 0 ∧
          (pipeUpdate (pipeRunAux bx p pre).1 bx d).1.x + p.width < bx))) ∧
    (∀ pre post, dts = pre ++ post →
      (pipeRunAux bx p dts).1.x ≤ (pipeRunAux bx p pre).1.x) ∧
    (∀ (dt2 : ℚ) (st : GState) (q : Pipe),
      (pipeStepState dt2 st q).1.score =
        st.score + (if (pipeUpdate q st.bird.x dt2).2 then 1 else 0)) := by
  refine ⟨pipeRunAux_count_le_one bx dts p h0, ?_, ?_, ?_⟩
  · intro pre d post hsplit
    have hpre : ∀ x ∈ pre, 0 ≤ x := fun x hx =>
      hd x (hsplit ▸ List.mem_append_left _ hx)
    have hw : (pipeRunAux bx p pre).1.width = p.width :=
      (pipeRunAux_x_le bx pre p hs hpre).2.2
    have hiff := (pipeUpdate_fields (pipeRunAux bx p pre).1 bx d).2.2.2.2
    have hsc := pipeRunAux_scored_iff bx pre p h0
    rw [hiff, hw]
    constructor
    · rintro ⟨hf, hcond⟩
      refine ⟨?_, hcond⟩
      by_contra hne
      exact absurd (hsc.mpr hne) (by simp [hf])
    · rintro ⟨hz, hcond⟩
      refine ⟨?_, hcond⟩
      cases hb : (pipeRunAux bx p pre).1.scored with
      | false => rfl
      | true => exact absurd (hsc.mp hb) (by simp [hz])
  · intro pre post hsplit
    subst hsplit
    have hpre : ∀ x ∈ pre, 0 ≤ x := fun x hx => hd x (List.mem_append_left _ hx)
    have hpost : ∀ x ∈ post, 0 ≤ x := fun x hx => hd x (List.mem_append_right _ hx)
    obtain ⟨-, hsp, -⟩ := pipeRunAux_x_le bx pre p hs hpre
    obtain ⟨hle, -, -⟩ :=
      pipeRunAux_x_le bx post (pipeRunAux bx p pre).1 (hsp ▸ hs) hpost
    rw [(pipeRunAux_append bx pre post p).1]
    exact hle
  · intro dt2 st q
    unfold pipeStepState applyScoreEffects
    dsimp only
    split_ifs <;> simp [gameOverUpd_fst]

/-- C3 witness: a concrete unscored pipe over two reference frames fires
at most once. -/
theorem pipe_scored_latch_once_witness :
    (pipeRunAux 80 pUnscored [50/3, 50/3]).2 ≤ 1 :=
  (pipe_scored_latch_once 80 pUnscored [50/3, 50/3] rfl
    (by norm_num [pUnscored])
    (by
      intro d hdm
      simp only [List.mem_cons, List.not_mem_nil, or_false] at hdm
      rcases hdm with rfl | rfl <;> norm_num)).1

/-- C6 counterexample: from the same mid-game state, the GAME_OVER jump
input enters PLAYING with velocity 0 (no jump impulse), while the START
jump input leaves velocity at exactly `jumpStrength`; the two transitions
produce different states, so they are not equivalent as claimed. -/
theorem handleJump_gameOver_cex :
    (handleJump 1000 sOver).phase = GamePhase.playing ∧
    (handleJump 1000 sOver).bird.velocity = 0 ∧
    (handleJump 1000 { sOver with phase := GamePhase.start }).bird.velocity
      = jumpStrength ∧
    handleJump 1000 sOver ≠
      handleJump 1000 { sOver with phase := GamePhase.start } := by
  have h2 : (handleJump 1000 sOver).bird.velocity = 0 := by
    norm_num [handleJump, sOver, startGame, birdReset, birdJump, jumpCooldown]
  have h3 : (handleJump 1000 { sOver with phase := GamePhase.start }).bird.velocity
      = jumpStrength := by
    norm_num [handleJump, sOver, startGame, birdReset, birdJump, jumpCooldown]
  refine ⟨?_, h2, h3, fun heq => ?_⟩
  · norm_num [handleJump, sOver, startGame, birdReset, jumpCooldown]
  · rw [heq, h3] at h2
    norm_num [jumpStrength] at h2

/-- C6 (amended): the GAME_OVER jump input performs exactly the same full
reset as the START transition (`startGame()`: score, pipes, particles,
frame counter, difficulty outputs, bird) but, unlike the START transition,
does NOT apply a jump impulse afterwards — only the START branch
additionally calls `bird.jump()` in the same input event. -/
theorem handleJump_restart_equiv (s : GState) (now : ℚ)
    (h : ¬ now - s.lastJumpTime < jumpCooldown) :
    handleJump now { s with phase := GamePhase.gameOver } =
      startGame { s with phase := GamePhase.gameOver, lastJumpTime := now } ∧
    handleJump now { s with phase := GamePhase.start } =
      { startGame { s with phase := GamePhase.start, lastJumpTime := now } with
          bird := birdJump (startGame
            { s with phase := GamePhase.start, lastJumpTime := now }).bird,
          particleCount := (startGame
            { s with phase := GamePhase.start, lastJumpTime := now }).particleCount + 5 } ∧
    (∀ t : GState, (startGame t).phase = GamePhase.playing ∧
      (startGame t).score = 0 ∧ (startGame t).pipes = [] ∧
      (startGame t).particleCount = 0 ∧ (startGame t).frame = 0 ∧
      (startGame t).difficultyMultiplier = 1 ∧
      (startGame t).currentPipeGap = pipeGapBase ∧
      (startGame t).bird = birdReset t.bird) ∧
    (handleJump now { s with phase := GamePhase.gameOver }).bird.velocity = 0 ∧
    (handleJump now { s with phase := GamePhase.start }).bird.velocity
      = jumpStrength := by
  refine ⟨?_, ?_,
    fun t => ⟨rfl, rfl, rfl, rfl, rfl, rfl, rfl, rfl⟩, ?_, ?_⟩ <;>
    simp [handleJump, h, startGame, birdReset, birdJump]

/-- C6 witness: the amended description at the concrete GAME_OVER state
(velocity after the restart is 0, i.e. no impulse). -/
theorem handleJump_restart_equiv_witness :
    (handleJump 1000 { sOver with phase := GamePhase.gameOver }).bird.velocity
      = 0 :=
  (handleJump_restart_equiv sOver 1000
    (by norm_num [sOver, jumpCooldown])).2.2.2.1

/-- C8: in the enhanced version every stored string that `parseInt` cannot
parse (and an absent key) initializes the best score to exactly 0; but the
legacy version (src/game.js line 19, no `parseInt`) keeps a non-empty
unparseable stored string such as "abc" as the best-score value instead of
0, contradicting the spec's "absent/unparseable → 0". -/
theorem bestScore_unparseable (s : List Char) (h : parseIntJS s = none) :
    bestScoreInit (some s) = 0 ∧
    bestScoreInit none = 0 ∧
    parseIntJS abcChars = none ∧
    bestScoreInitLegacy (some abcChars) = JSVal.str abcChars ∧
    JSVal.str abcChars ≠ JSVal.num 0 := by
  refine ⟨?_, rfl, by decide, rfl, by simp⟩
  simp [bestScoreInit, h]

/-- C8 witness: the enhanced initialization at the unparseable stored
string "abc" is 0. -/
theorem bestScore_unparseable_witness :
    bestScoreInit (some abcChars) = 0 :=
  (bestScore_unparseable abcChars (by decide)).1

/-- C9 counterexample: a width-60 obstacle at x = -1 in a PLAYING state is
NOT removed on the next tick's cleanup pass (its right edge is still at
59 > 0, and one tick's movement leaves it on screen). -/
theorem pipe_at_minus_one_survives_cex :
    sScenario4.phase = GamePhase.playing ∧
    sScenario4.pipes = [pAtMinusOne] ∧
    pAtMinusOne.x = -1 ∧ pAtMinusOne.width = 60 ∧
    (gameLoopTick sScenario4 (50/3) 0).pipes ≠ [] := by
  refine ⟨rfl, rfl, rfl, rfl, ?_⟩
  norm_num [gameLoopTick, tickDelta, sScenario4, pAtMinusOne, birdInit,
    pipesFoldRev, pipeStepState, pipeUpdate, collidesWith, applyScoreEffects,
    gameOverUpd, birdUpdate, birdVel1, birdY1, normalizedDelta, jsMod,
    particleCap, pipeSpawnInterval, targetFPS, birdGravity, terminalVelocity,
    canvasHeight, groundHeight, groundScrollSpeed, hitboxPadding, birdStartX,
    birdWidthC, birdHeightC, rotationEasing]

/-- C9 (amended): the cleanup pass drops an obstacle exactly when, after
that tick's movement, `x + width < 0` (fully off-screen) — so a width-60
obstacle at x = -61 is removed on the next tick while one at x = -1 is
not — and the survivors keep their relative order (the survivor list is a
sublist of the updated list); while PLAYING the tick's pipe list is
exactly this pass over the (possibly spawn-extended) sequence. -/
theorem pipe_cleanup_rule (bx dt : ℚ) (ps : List Pipe) :
    List.Sublist (pipesStep bx dt ps) (ps.map (fun p => (pipeUpdate p bx dt).1)) ∧
    (∀ q ∈ pipesStep bx dt ps, ¬ q.x + q.width < 0) ∧
    (∀ p ∈ ps, ¬ ((pipeUpdate p bx dt).1.x + (pipeUpdate p bx dt).1.width < 0) →
      (pipeUpdate p bx dt).1 ∈ pipesStep bx dt ps) ∧
    (∀ p : Pipe, p.x = -61 → p.width = 60 → 0 ≤ p.speed → 0 ≤ dt →
      pipesStep bx dt [p] = []) ∧
    (∀ (s : GState) (now r : ℚ), s.phase = GamePhase.playing →
      (gameLoopTick s now r).pipes =
        pipesStep s.bird.x (tickDelta s now)
          (if (s.frame + 1) % pipeSpawnInterval = 0 then
             s.pipes ++ [spawnPipe r s.currentPipeGap s.difficultyMultiplier]
           else s.pipes)) := by
  refine ⟨List.filter_sublist _, ?_, ?_, ?_,
    fun s now r hph => gameLoopTick_pipes s now r hph⟩
  · intro q hq
    have := (List.mem_filter.mp hq).2
    simpa using this
  · intro p hp hkeep
    exact List.mem_filter.mpr ⟨List.mem_map_of_mem _ hp, by simpa using hkeep⟩
  · intro p hx hw hs hdt
    have hmul : 0 ≤ p.speed * normalizedDelta dt :=
      mul_nonneg hs (normalizedDelta_nonneg dt hdt)
    have hoff : (pipeUpdate p bx dt).1.x + (pipeUpdate p bx dt).1.width < 0 := by
      rw [(pipeUpdate_fields p bx dt).2.2.1]
      have hw2 : (pipeUpdate p bx dt).1.width = p.width :=
        (pipeUpdate_fields p bx dt).1
      rw [hw2, hx, hw]
      linarith
    simp [pipesStep, hoff]

/-- C9 witness: the concrete width-60 pipe at x = -61 is removed by the
pass at one reference frame. -/
theorem pipe_cleanup_rule_witness :
    pipesStep 80 (50/3) [pMinus61] = [] :=
  (pipe_cleanup_rule 80 (50/3) [pMinus61]).2.2.2.1 pMinus61 rfl rfl
    (by norm_num [pMinus61]) (by norm_num)

/-- The gravity-plus-clamp velocity step never drops below the jump
impulse when the incoming velocity is at least the jump impulse. -/
theorem birdVel1_lb (b : Bird) (dt : ℚ) (hb : jumpStrength ≤ b.velocity)
    (hnd : 0 ≤ normalizedDelta dt) : jumpStrength ≤ birdVel1 b dt := by
  have hmul : 0 ≤ birdGravity * normalizedDelta dt :=
    mul_nonneg (by norm_num [birdGravity]) hnd
  unfold birdVel1
  exact le_min (by linarith) (by norm_num [jumpStrength, terminalVelocity])

/-- One bird operation with a nonnegative delta never drops the velocity
below the jump impulse. -/
theorem applyOp_velocity_lb (b : Bird) (op : BirdOp)
    (hb : jumpStrength ≤ b.velocity) (hd : 0 ≤ opDt op) :
    jumpStrength ≤ (applyOp b op).velocity := by
  cases op with
  | jump => simp [applyOp, birdJump]
  | reset => simp only [applyOp, birdReset]; norm_num [jumpStrength]
  | update ph dt =>
    simp only [opDt] at hd
    have hnd : 0 ≤ normalizedDelta dt := normalizedDelta_nonneg dt hd
    simp only [applyOp, birdUpdate]
    split_ifs <;>
      first
        | exact birdVel1_lb b dt hb hnd
        | norm_num [jumpStrength]

/-- Velocity lower bound along a whole run of operations. -/
theorem runOps_velocity_lb (ops : List BirdOp) :
    ∀ b : Bird, jumpStrength ≤ b.velocity → (∀ op ∈ ops, 0 ≤ opDt op) →
      jumpStrength ≤ (runOps b ops).velocity := by
  induction ops with
  | nil => intro b hb _; exact hb
  | cons op rest ih =>
    intro b hb hall
    have h1 := applyOp_velocity_lb b op hb (hall op (List.mem_cons_self op rest))
    have h2 := ih (applyOp b op) h1 (fun o ho => hall o (List.mem_cons_of_mem op ho))
    simpa [runOps, List.foldl_cons] using h2

/-- C10: along every sequence of bird operations from the startup bird
(with nonnegative deltas, i.e. nonnegative normalized deltas), the
velocity never drops below `jumpStrength` (-10): jump sets it to exactly
`jumpStrength`, reset and boundary contact set it to 0, and the update
only adds a nonnegative gravity increment and clamps from above. -/
theorem bird_velocity_lower_bound (ops : List BirdOp)
    (h : ∀ op ∈ ops, 0 ≤ opDt op) :
    jumpStrength ≤ (runOps birdInit ops).velocity ∧
    (∀ b : Bird, (birdJump b).velocity = jumpStrength) ∧
    (∀ b : Bird, (birdReset b).velocity = 0) :=
  ⟨runOps_velocity_lb ops birdInit (by norm_num [birdInit, jumpStrength]) h,
    fun b => rfl, fun b => rfl⟩

/-- C10 witness: the bound at a concrete operation sequence. -/
theorem bird_velocity_lower_bound_witness :
    jumpStrength ≤ (runOps birdInit opsW).velocity :=
  (bird_velocity_lower_bound opsW
    (by
      intro op hop
      simp only [opsW, List.mem_cons, List.not_mem_nil, or_false] at hop
      rcases hop with rfl | rfl | rfl | rfl <;> norm_num [opDt])).1

/-- C4: `Pipe.collidesWith(bird)` returns true iff the padding-shrunk bird
box horizontally overlaps the pipe's x-band and the padded top is above
`topHeight` or the padded bottom is below `topHeight + gap`; a padded box
fully inside the gap never reports collision, and one breaching either
bound within the x-band always does. -/
theorem collidesWith_characterization (p : Pipe) (b : Bird) :
    (collidesWith p b = true ↔
      ((p.x < b.x + b.width - hitboxPadding ∧ b.x + hitboxPadding < p.x + p.width) ∧
        (b.y + hitboxPadding < p.topHeight ∨
          p.topHeight + p.gap < b.y + b.height - hitboxPadding))) ∧
    ((p.topHeight ≤ b.y + hitboxPadding ∧
        b.y + b.height - hitboxPadding ≤ p.topHeight + p.gap) →
      collidesWith p b = false) ∧
    ((p.x < b.x + b.width - hitboxPadding ∧ b.x + hitboxPadding < p.x + p.width) →
      (b.y + hitboxPadding < p.topHeight ∨
        p.topHeight + p.gap < b.y + b.height - hitboxPadding) →
      collidesWith p b = true) := by
  have hiff : collidesWith p b = true ↔
      ((p.x < b.x + b.width - hitboxPadding ∧ b.x + hitboxPadding < p.x + p.width) ∧
        (b.y + hitboxPadding < p.topHeight ∨
          p.topHeight + p.gap < b.y + b.height - hitboxPadding)) := by
    simp only [collidesWith, Bool.and_eq_true, Bool.or_eq_true, decide_eq_true_eq,
      gt_iff_lt]
  refine ⟨hiff, ?_, fun hx hv => hiff.mpr ⟨hx, hv⟩⟩
  rintro ⟨h1, h2⟩
  cases hcb : collidesWith p b with
  | false => rfl
  | true =>
    exfalso
    rcases (hiff.mp hcb).2 with h3 | h3 <;> linarith

/-- C4 witness: a bird box fully inside the gap within the x-band reports
no collision (pipe at x = 70, gap band [100, 250], bird at y = 150). -/
theorem collidesWith_characterization_witness :
    collidesWith
      { x := 70, width := 60, gap := 150, topHeight := 100, scored := false,
        speed := 5/2, highlightOffset := 0 } bInsideGap = false :=
  (collidesWith_characterization _ bInsideGap).2.1 (by norm_num [bInsideGap, hitboxPadding])

/-- C5: with difficulty enabled the controller is
`(min (1 + s·inc) cap, max (base − s·dec) floor)` — 1 and baseGap at s = 0,
multiplier non-decreasing and capped, gap non-increasing and floored — and
with difficulty disabled both outputs stay at 1 and baseGap regardless of
score. -/
theorem difficulty_controller (s t : ℕ) (dm gap dm2 gap2 : ℚ) (hst : s ≤ t) :
    updateDifficulty true s dm gap =
      (min (1 + (s : ℚ) * speedIncreasePerScore) maxSpeedMultiplier,
        max (pipeGapBase - (s : ℚ) * gapDecreasePerScore) minGap) ∧
    updateDifficulty true 0 dm gap = (1, pipeGapBase) ∧
    1 ≤ (updateDifficulty true s dm gap).1 ∧
    (updateDifficulty true s dm gap).1 ≤ (updateDifficulty true t dm2 gap2).1 ∧
    (updateDifficulty true s dm gap).1 ≤ maxSpeedMultiplier ∧
    (updateDifficulty true t dm2 gap2).2 ≤ (updateDifficulty true s dm gap).2 ∧
    minGap ≤ (updateDifficulty true s dm gap).2 ∧
    (updateDifficulty true s dm gap).2 ≤ pipeGapBase ∧
    updateDifficulty false s dm gap = (dm, gap) ∧
    (∀ scores : List ℕ, difficultyAfter false scores = (1, pipeGapBase)) := by
  have hcast : (s : ℚ) ≤ (t : ℚ) := Nat.cast_le.mpr hst
  have hs0 : (0 : ℚ) ≤ (s : ℚ) := Nat.cast_nonneg s
  refine ⟨by simp [updateDifficulty], ?_, ?_, ?_, ?_, ?_, ?_, ?_,
    updateDifficulty_disabled s dm gap, difficultyAfter_disabled⟩
  · simp only [updateDifficulty, Bool.true_eq_false, if_false, Nat.cast_zero,
      speedIncreasePerScore, gapDecreasePerScore, maxSpeedMultiplier,
      pipeGapBase, minGap]
    rw [min_eq_left (by norm_num), max_eq_left (by norm_num)]
    norm_num [pipeGapBase]
  · simp only [updateDifficulty, Bool.true_eq_false, if_false,
      speedIncreasePerScore, maxSpeedMultiplier]
    exact le_min (by linarith) (by norm_num)
  · simp only [updateDifficulty, Bool.true_eq_false, if_false,
      speedIncreasePerScore]
    exact min_le_min (by linarith) le_rfl
  · simp only [updateDifficulty, Bool.true_eq_false, if_false]
    exact min_le_right _ _
  · simp only [updateDifficulty, Bool.true_eq_false, if_false,
      gapDecreasePerScore]
    exact max_le_max (by linarith) le_rfl
  · simp only [updateDifficulty, Bool.true_eq_false, if_false]
    exact le_max_right _ _
  · simp only [updateDifficulty, Bool.true_eq_false, if_false,
      gapDecreasePerScore, pipeGapBase, minGap]
    exact max_le (by linarith) (by norm_num)

/-- C5 witness: the controller at scores 4 ≤ 10 with arbitrary previous
outputs: the multiplier at score 4 is at most the one at score 10. -/
theorem difficulty_controller_witness :
    (updateDifficulty true 4 1 150).1 ≤ (updateDifficulty true 10 1 150).1 :=
  (difficulty_controller 4 10 1 150 1 150 (by norm_num)).2.2.2.1

end Flappy
